import Mathlib

/-!
Verification development for the idb-sideloader repository.

The repository contains two implementation variants of the same cache engine:
an eager-connection variant (src/src/index.ts, methods prefixed with an
underscore, a nullable db handle set up by init) and a lazily-connecting
variant (the class in the unnamed source, private methods, a store callback
created in the constructor).  Both are embedded below.

Modelling conventions:
- IndexedDB is modelled as an association list from string keys to stored
  entries; put is a full overwrite, delete removes the key.
- Blobs are opaque and modelled as natural numbers.
- Timestamps are naturals (milliseconds); a null expiry is Option.none.
- The asynchronous environment of one resolution is a record of outcomes:
  whether the store read fails, what the network fetch yields (none models a
  transport error or a non-ok response), and whether the store write fails.
- Promise code that only ever calls resolve is embedded as a total function;
  promise code that can reject is embedded with Except; the one promise that
  can fail to settle at all — the eager _fetchObject, where the rejection of
  the inner r.blob() call is unhandled (the outer catch is attached to the
  fetch chain, whose callback has already returned) — is embedded with
  Option: none is a promise that never settles.  Env describes the settling
  fetch executions (a blob delivered, or the fetch rejecting); EnvFull is the
  full outcome space, adding the ok-response-with-failed-body-read outcome,
  and bridge lemmas below prove the Env-based functions are exactly the
  EnvFull-based ones restricted to settling executions.
-/

/-- A stored entry, the persisted record written to the key-value store.
Entries written by the code always carry a concrete blob. -/
structure Entry where
  key : String
  hash : String
  expiry : Option Nat
  blob : Nat
deriving DecidableEq, Repr

/-- A reference descriptor (DBObj without its el and data fields): one asset
binding discovered on the page. -/
structure Descriptor where
  key : String
  src : String
  hash : String
  isAsync : Bool
  expiry : Option Nat
deriving DecidableEq, Repr

/-- The data record carried by a resolved DBObj (the data field of DBObj in
types.ts): key, hash, expiry and an optional blob. -/
structure DataRec where
  key : String
  hash : String
  expiry : Option Nat
  blob : Option Nat
deriving DecidableEq, Repr

/-- The data record a stored entry yields when returned from the store. -/
def Entry.toData (e : Entry) : DataRec :=
  { key := e.key, hash := e.hash, expiry := e.expiry, blob := some e.blob }

/-- The still-unresolved data record (the literal empty object a DBObj starts
with); only its absent blob is ever consulted. -/
def emptyData : DataRec :=
  { key := "", hash := "", expiry := none, blob := none }

/-- The persistent store: an association list from keys to entries. -/
abbrev Store := List (String × Entry)

/-- Store lookup (objectStore.get). -/
def Store.get : Store → String → Option Entry
  | [], _ => none
  | p :: rest, k => if p.1 = k then some p.2 else Store.get rest k

/-- Store deletion (objectStore.delete): removes every pair under the key. -/
def Store.del : Store → String → Store
  | [], _ => []
  | p :: rest, k => if p.1 = k then Store.del rest k else p :: Store.del rest k

/-- Store write (objectStore.put): a full overwrite of the key. -/
def Store.put (s : Store) (k : String) (e : Entry) : Store :=
  (k, e) :: Store.del s k

/-- Key enumeration (objectStore.getAllKeys). -/
def Store.keys : Store → List String
  | [] => []
  | p :: rest => p.1 :: Store.keys rest

/-- Delete a list of keys (the delMany helper of the lazy variant). -/
def delMany (ks : List String) (s : Store) : Store :=
  ks.foldl (fun acc k => Store.del acc k) s

/-- Outcomes of the asynchronous collaborators during one resolution,
restricted to executions in which the fetch settles: fetchRes is some blob
when the response is ok and its body reads successfully, and none when the
transport fails or the response is not ok.  The full outcome space, which
also contains the ok-response-with-failed-body-read case under which the
eager variant never settles, is EnvFull below. -/
structure Env where
  readFails : Bool
  fetchRes : Option Nat
  putFails : Bool
deriving DecidableEq, Repr

/-- Outcomes of the store operations during one prune. -/
structure PruneEnv where
  keysFails : Bool
  delFails : Bool
deriving DecidableEq, Repr

/-- The runtime errors the embedding distinguishes. -/
inductive JsError where
  | typeError
  | pruneKeysError
  | pruneDelError
deriving DecidableEq, Repr

/-- Eager variant _getDBblob: look the key up; reject when the read fails,
when there is no stored data, when the descriptor hash is non-empty and the
stored hash differs, or when the stored expiry has passed (in the last case
the stale entry is deleted first, so the store may change on the error
path). -/
def getDBblobEager (now : Nat) (d : Descriptor) (s : Store) (env : Env) :
    Except Unit DataRec × Store :=
  if env.readFails then (Except.error (), s)
  else
    match Store.get s d.key with
    | none => (Except.error (), s)
    | some e =>
      if d.hash ≠ "" ∧ e.hash ≠ d.hash then (Except.error (), s)
      else
        match e.expiry with
        | some t =>
          if now > t then (Except.error (), Store.del s e.key)
          else (Except.ok e.toData, s)
        | none => (Except.ok e.toData, s)

/-- Lazy variant getDBblob: identical to the eager one except that it first
rejects any stored record whose own key field is falsy (the check on
data.key, where the empty string is falsy). -/
def getDBblobLazy (now : Nat) (d : Descriptor) (s : Store) (env : Env) :
    Except Unit DataRec × Store :=
  if env.readFails then (Except.error (), s)
  else
    match Store.get s d.key with
    | none => (Except.error (), s)
    | some e =>
      if e.key = "" then (Except.error (), s)
      else if d.hash ≠ "" ∧ e.hash ≠ d.hash then (Except.error (), s)
      else
        match e.expiry with
        | some t =>
          if now > t then (Except.error (), Store.del s e.key)
          else (Except.ok e.toData, s)
        | none => (Except.ok e.toData, s)

/-- fetchObject of either variant over the settling fetch executions: fetch
the source; reject on a transport error or a non-ok response; on a delivered
blob build the entry from the descriptor key, hash and expiry and put it
(overwrite); reject when the put fails, leaving the store unchanged.  The
remaining outcome — an ok response whose body read fails — is covered by
fetchObjectFull (eager; never settles there) and fetchObjectFullLazy (lazy;
rejects there), with bridge lemmas relating them to this function. -/
def fetchObject (d : Descriptor) (s : Store) (env : Env) :
    Except Unit DataRec × Store :=
  match env.fetchRes with
  | none => (Except.error (), s)
  | some b =>
    let e : Entry := { key := d.key, hash := d.hash, expiry := d.expiry, blob := b }
    if env.putFails then (Except.error (), s)
    else (Except.ok e.toData, Store.put s d.key e)

/-- Shared tail of getObject: on a store hit resolve with the stored data and
no fetch; otherwise fetch once, resolving with the fetched data on success
and with the explicit no-payload record on total failure.  The third
component counts the network fetches issued. -/
def getObjectAux (dbRes : Except Unit DataRec × Store) (d : Descriptor)
    (env : Env) : DataRec × Store × Nat :=
  match dbRes with
  | (Except.ok data, s') => (data, s', 0)
  | (Except.error _, s') =>
    match fetchObject d s' env with
    | (Except.ok data, s'') => (data, s'', 1)
    | (Except.error _, s'') =>
      ({ key := d.key, hash := d.hash, expiry := d.expiry, blob := none }, s'', 1)

/-- Eager variant _getObject: never rejects. -/
def getObjectEager (now : Nat) (d : Descriptor) (s : Store) (env : Env) :
    DataRec × Store × Nat :=
  getObjectAux (getDBblobEager now d s env) d env

/-- Lazy variant getObject: never rejects. -/
def getObjectLazy (now : Nat) (d : Descriptor) (s : Store) (env : Env) :
    DataRec × Store × Nat :=
  getObjectAux (getDBblobLazy now d s env) d env

/-- The full set of outcomes of one network fetch: a transport error or
non-ok response (the fetch step rejects), an ok response whose body read
delivers a blob, or an ok response whose body read (r.blob()) fails. -/
inductive FetchOutcome where
  | fail
  | ok : Nat → FetchOutcome
  | okBodyFails
deriving DecidableEq, Repr

/-- Outcomes of the asynchronous collaborators during one resolution, over
the full fetch outcome space. -/
structure EnvFull where
  readFails : Bool
  fetch : FetchOutcome
  putFails : Bool
deriving DecidableEq, Repr

/-- The settling-execution view of a full environment: a delivered blob maps
to some blob, and both rejecting-fetch and failed-body-read map to none (for
the store-read and store-write flags, and for every consumer that treats a
non-delivered body as a plain failure, this is the faithful restriction). -/
def envOfFull (envF : EnvFull) : Env :=
  { readFails := envF.readFails
  , fetchRes :=
      match envF.fetch with
      | FetchOutcome.ok b => some b
      | _ => none
  , putFails := envF.putFails }

/-- Eager variant _fetchObject over the full outcome space.  The promise is
built by hand: the outer catch is attached to the fetch().then(...) chain,
whose callback has already returned when the inner r.blob().then(...) chain
runs, so a body-read rejection is handled by nothing — neither resolve nor
reject is ever called and the promise never settles.  none models that
forever-pending promise; every other outcome settles as in fetchObject. -/
def fetchObjectFull (d : Descriptor) (s : Store) (envF : EnvFull) :
    Option (Except Unit DataRec × Store) :=
  match envF.fetch with
  | FetchOutcome.fail => some (Except.error (), s)
  | FetchOutcome.okBodyFails => none
  | FetchOutcome.ok b =>
    let e : Entry := { key := d.key, hash := d.hash, expiry := d.expiry, blob := b }
    if envF.putFails then some (Except.error (), s)
    else some (Except.ok e.toData, Store.put s d.key e)

/-- Lazy variant #fetchObject over the full outcome space: the body is read
with await r.blob(), so its rejection rejects #fetchObject before the store
write, exactly like a failed fetch; every outcome settles. -/
def fetchObjectFullLazy (d : Descriptor) (s : Store) (envF : EnvFull) :
    Except Unit DataRec × Store :=
  match envF.fetch with
  | FetchOutcome.fail => (Except.error (), s)
  | FetchOutcome.okBodyFails => (Except.error (), s)
  | FetchOutcome.ok b =>
    let e : Entry := { key := d.key, hash := d.hash, expiry := d.expiry, blob := b }
    if envF.putFails then (Except.error (), s)
    else (Except.ok e.toData, Store.put s d.key e)

/-- Eager variant _getObject over the full outcome space: a store hit
resolves with the stored data and no fetch; otherwise one fetch is issued,
and when that fetch hangs (ok response, failed body read) nothing ever calls
resolve, so _getObject itself never settles — the none result. -/
def getObjectFullEager (now : Nat) (d : Descriptor) (s : Store)
    (envF : EnvFull) : Option (DataRec × Store × Nat) :=
  match getDBblobEager now d s (envOfFull envF) with
  | (Except.ok data, s') => some (data, s', 0)
  | (Except.error _, s') =>
    match fetchObjectFull d s' envF with
    | none => none
    | some (Except.ok data, s'') => some (data, s'', 1)
    | some (Except.error _, s'') =>
      some ({ key := d.key, hash := d.hash, expiry := d.expiry, blob := none }, s'', 1)

/-- Lazy variant getObject over the full outcome space: always settles,
because every failure of its awaited steps is caught. -/
def getObjectFullLazy (now : Nat) (d : Descriptor) (s : Store)
    (envF : EnvFull) : DataRec × Store × Nat :=
  match getDBblobLazy now d s (envOfFull envF) with
  | (Except.ok data, s') => (data, s', 0)
  | (Except.error _, s') =>
    match fetchObjectFullLazy d s' envF with
    | (Except.ok data, s'') => (data, s'', 1)
    | (Except.error _, s'') =>
      ({ key := d.key, hash := d.hash, expiry := d.expiry, blob := none }, s'', 1)

/-- _applyElements / applyElements chain, observed as the list of element
indices that get a payload assigned, in assignment order.  The source installs
the same closure as both onload and onerror of every element except the last,
the closure applying the next element; it then applies element 0.  applyElement
returns immediately when the data record carries no blob, so such an element is
never assigned a source and never fires a completion event: the chain stops.
The outcome argument tells, for each applied element, whether its completion
event is load (true) or error (false); both run the identical handler.  The
recursion re-indexes the tail, shifting its indices up by one. -/
def applyElementsRun : List DataRec → (Nat → Bool) → List Nat
  | [], _ => []
  | o :: rest, outcome =>
    if o.blob.isSome then
      0 ::
        (match outcome 0 with
         | true => (applyElementsRun rest (fun k => outcome (k + 1))).map (fun i => i + 1)
         | false => (applyElementsRun rest (fun k => outcome (k + 1))).map (fun i => i + 1))
    else []

/-- Events observable during the ordered part of one load pass. -/
inductive Ev where
  | resolved : Nat → Ev
  | applied : Nat → Ev
  | fired : Nat → Ev
deriving DecidableEq, Repr, BEq

/-- Re-index an event one element later in the list. -/
def evShift : Ev → Ev
  | Ev.resolved i => Ev.resolved (i + 1)
  | Ev.applied i => Ev.applied (i + 1)
  | Ev.fired i => Ev.fired (i + 1)

/-- Event trace of the application chain: element 0 is applied when it has a
blob, then fires load or error (the identical handler runs either way), which
applies the rest of the chain shifted by one; a blobless element produces no
events and the chain stops. -/
def chainTrace : List DataRec → (Nat → Bool) → List Ev
  | [], _ => []
  | o :: rest, outcome =>
    if o.blob.isSome then
      Ev.applied 0 :: Ev.fired 0 ::
        (match outcome 0 with
         | true => (chainTrace rest (fun k => outcome (k + 1))).map evShift
         | false => (chainTrace rest (fun k => outcome (k + 1))).map evShift)
    else []

/-- Event trace of the ordered part of one eager load pass: the individual
resolutions settle in completionOrder; the await on allSettled suspends until
every one of them has settled, and only then does _applyElements start the
chain. -/
def passTrace (objs : List DataRec) (completionOrder : List Nat)
    (outcome : Nat → Bool) : List Ev :=
  completionOrder.map Ev.resolved ++ chainTrace objs outcome

/-- Eager variant _prune: enumerate the stored keys, then delete every one not
contained in the live list (the keyMap membership test). -/
def pruneEager (live : List String) (s : Store) : Store :=
  (Store.keys s).foldl (fun acc k => if live.contains k then acc else Store.del acc k) s

/-- Lazy variant prune: enumerate the stored keys, filter those missing from
the keyMap, and delete them all. -/
def pruneLazyPure (live : List String) (s : Store) : Store :=
  delMany ((Store.keys s).filter (fun k => !(live.contains k))) s

/-- The effect of the eager fire-and-forget _prune under the prune
environment: when enumeration fails no onsuccess ever runs, and when the
deletes fail nothing is removed; either way nothing is reported back. -/
def pruneEagerApply (live : List String) (s : Store) (penv : PruneEnv) : Store :=
  if penv.keysFails then s
  else if penv.delFails then s
  else pruneEager live s

/-- Lazy variant prune as awaited by load: enumeration or deletion failure is
a rejection that the caller sees. -/
def pruneLazyE (live : List String) (s : Store) (penv : PruneEnv) :
    Except JsError Store :=
  if penv.keysFails then Except.error JsError.pruneKeysError
  else if penv.delFails then Except.error JsError.pruneDelError
  else Except.ok (pruneLazyPure live s)

/-- One scannable page element with its data attributes and the applied
mark. -/
structure El where
  tag : String
  keyAttr : String
  src : String
  hashAttr : String
  asyncAttr : Bool
  deferAttr : Bool
  lazyAttr : Bool
  expiryAttr : Option Nat
  indexed : Bool
deriving DecidableEq, Repr

/-- Eager variant isAsync: every non-script element is async, and scripts are
async when they carry the async or defer attribute. -/
def isAsyncEager (e : El) : Bool :=
  decide (e.tag ≠ "SCRIPT") || e.asyncAttr || e.deferAttr

/-- Lazy variant isAsync: the element carries async, defer or lazy. -/
def isAsyncLazy (e : El) : Bool :=
  e.asyncAttr || e.deferAttr || e.lazyAttr

/-- Expiry computation at descriptor construction: a present data-expiry
attribute always yields now plus that many minutes (a zero attribute is the
truthy string zero); otherwise the global option applies when it is a non-null
non-zero number, and the expiry stays null when both are absent. -/
def computeExpiry (now : Nat) (optExpiry : Option Nat) (attr : Option Nat) :
    Option Nat :=
  match attr with
  | some a => some (now + a * 60000)
  | none =>
    match optExpiry with
    | some g => if g = 0 then none else some (now + g * 60000)
    | none => none

/-- Build the DBObj for one element: key defaults to the source locator, as
does the hash; the expiry is computed from the attribute or the global
option. -/
def mkDescriptor (now : Nat) (optExpiry : Option Nat) (isA : El → Bool)
    (e : El) : Descriptor :=
  { key := if e.keyAttr = "" then e.src else e.keyAttr
  , src := e.src
  , hash := if e.hashAttr = "" then e.src else e.hashAttr
  , isAsync := isA e
  , expiry := computeExpiry now optExpiry e.expiryAttr }

/-- Run one resolution per descriptor, threading the store (the store's own
transactions serialize the concurrent requests; the model serializes them in
the order the forEach starts them) and summing the fetch counts. -/
def resolveSeq (getObj : Descriptor → Store → DataRec × Store × Nat) :
    List Descriptor → Store → List DataRec × Store × Nat
  | [], s => ([], s, 0)
  | d :: ds, s =>
    let r := getObj d s
    let rs := resolveSeq getObj ds r.2.1
    (r.1 :: rs.1, rs.2.1, r.2.2 + rs.2.2)

/-- Mark the scanned elements after application: an async element is applied
upon its own resolution and marked data-indexed exactly when a blob was
applied; an ordered element is applied, and so marked, exactly when its
position among the ordered elements appears in the chain run. -/
def applyMarks (isA : El → Bool) (run : List Nat) :
    List (El × DataRec) → Nat → List El
  | [], _ => []
  | (e, d) :: rest, j =>
    if isA e then
      (if d.blob.isSome then { e with indexed := true } else e) ::
        applyMarks isA run rest j
    else
      (if j ∈ run then { e with indexed := true } else e) ::
        applyMarks isA run rest (j + 1)

/-- Reassemble the document after a pass: elements that were skipped by the
scan (already marked) stay as they are, the others are replaced by their
post-application versions in order. -/
def reassemble : List El → List El → List El
  | [], _ => []
  | e :: rest, ms =>
    if e.indexed then e :: reassemble rest ms
    else
      match ms with
      | [] => e :: reassemble rest []
      | m :: tl => m :: reassemble rest tl

/-- Eager variant _setupElements on a whole-document scan.  The scan selector
excludes elements already carrying data-indexed (and the per-element guard
re-checks it).  Without a db handle, _applyElements runs immediately on the
obj list whose data records are all still the empty object: on an empty list
the unconditional read of the first element's data field is a TypeError, and
on a non-empty list applyElement returns at once for every element (no blob),
so nothing is assigned or marked.  With a db handle every obj is resolved,
async ones are applied on their own completion, and the ordered ones are
chained in document order after allSettled. -/
def loadEagerCore (now : Nat) (optExpiry : Option Nat) (db : Bool) (env : Env)
    (outcome : Nat → Bool) (doc : List El) (s : Store) :
    Except JsError (List El × Store × Nat) :=
  let scanned := doc.filter (fun e => !e.indexed)
  if db then
    let objs := scanned.map (mkDescriptor now optExpiry isAsyncEager)
    let r := resolveSeq (fun d st => getObjectEager now d st env) objs s
    let pairs := scanned.zip r.1
    let orderedDatas := (pairs.filter (fun p => !(isAsyncEager p.1))).map (fun p => p.2)
    let run := applyElementsRun orderedDatas outcome
    Except.ok (reassemble doc (applyMarks isAsyncEager run pairs 0), r.2.1, r.2.2)
  else
    match scanned with
    | [] => Except.error JsError.typeError
    | _ :: _ => Except.ok (doc, s, 0)

/-- Eager variant load: set up the elements, then, when the db is available,
objects were found and pruning is enabled, fire _prune without awaiting it.
The first component is the outcome the caller observes (the settled document
and the fetch count, or the propagated error); the second is the store as
left behind, including the background prune effect. -/
def loadEager (now : Nat) (optExpiry : Option Nat) (pruneOpt db : Bool)
    (env : Env) (outcome : Nat → Bool) (penv : PruneEnv) (doc : List El)
    (s : Store) : Except JsError (List El × Nat) × Store :=
  match loadEagerCore now optExpiry db env outcome doc s with
  | Except.error e => (Except.error e, s)
  | Except.ok (doc', s', n) =>
    let scanned := doc.filter (fun e => !e.indexed)
    if db && !scanned.isEmpty && pruneOpt then
      (Except.ok (doc', n),
        pruneEagerApply
          ((scanned.map (mkDescriptor now optExpiry isAsyncEager)).map (fun d => d.key))
          s' penv)
    else (Except.ok (doc', n), s')

/-- Lazy variant setupElements: same scan and per-element processing, with the
lazy isAsync rule and the lazy getObject; there is no db-unavailable branch
and the chain only runs when some ordered object exists, so no crash is
possible here. -/
def loadLazyCore (now : Nat) (optExpiry : Option Nat) (env : Env)
    (outcome : Nat → Bool) (doc : List El) (s : Store) :
    List El × Store × Nat :=
  let scanned := doc.filter (fun e => !e.indexed)
  let objs := scanned.map (mkDescriptor now optExpiry isAsyncLazy)
  let r := resolveSeq (fun d st => getObjectLazy now d st env) objs s
  let pairs := scanned.zip r.1
  let orderedDatas := (pairs.filter (fun p => !(isAsyncLazy p.1))).map (fun p => p.2)
  let run := applyElementsRun orderedDatas outcome
  (reassemble doc (applyMarks isAsyncLazy run pairs 0), r.2.1, r.2.2)

/-- Lazy variant load: set up the elements; when objects were found and
pruning is enabled, await prune, so a prune rejection rejects the load
call. -/
def loadLazy (now : Nat) (optExpiry : Option Nat) (pruneOpt : Bool) (env : Env)
    (outcome : Nat → Bool) (penv : PruneEnv) (doc : List El) (s : Store) :
    Except JsError (List El × Store × Nat) :=
  let r := loadLazyCore now optExpiry env outcome doc s
  let scanned := doc.filter (fun e => !e.indexed)
  if scanned.isEmpty then Except.ok r
  else if pruneOpt then
    match
      pruneLazyE
        ((scanned.map (mkDescriptor now optExpiry isAsyncLazy)).map (fun d => d.key))
        r.2.1 penv with
    | Except.error e => Except.error e
    | Except.ok s2 => Except.ok (r.1, s2, r.2.2)
  else Except.ok r

/-- Eager variant init: with skip set it returns before ever opening the
store, leaving the db handle null; otherwise the handle is set exactly when
opening succeeded in time. -/
def initEager (skip openOk : Bool) : Bool :=
  if skip then false else openOk

/-- Whether the eager init opens the persistent store at all. -/
def initEagerOpensStore (skip : Bool) : Bool :=
  !skip

/-- Whether the lazy constructor opens the persistent store: createStore is
called unconditionally, whatever the options say; the skip option is never
read anywhere else in that variant. -/
def ctorLazyOpensStore (_opts_skip : Bool) : Bool :=
  true

/-- Every applied ordered element completes with a load event. -/
def outcomeTrue : Nat → Bool := fun _ => true

/-- Every applied ordered element completes with an error event. -/
def outcomeFalse : Nat → Bool := fun _ => false

/-- A descriptor built from an element with an empty data-src and no data-key
or data-hash: key, src and hash all default to the empty string. -/
def dEmptyKey : Descriptor :=
  { key := "", src := "", hash := "", isAsync := false, expiry := none }

/-- A stored entry under the empty key whose stored key field is itself empty,
with a hash matching dEmptyKey and no expiry. -/
def eEmptyKey : Entry := { key := "", hash := "", expiry := none, blob := 7 }

/-- A store holding eEmptyKey under the empty key. -/
def sEmptyKey : Store := [(("" : String), eEmptyKey)]

/-- An environment with a working store and a network that yields blob 9. -/
def envNet9 : Env := { readFails := false, fetchRes := some 9, putFails := false }

/-- A stored entry under the empty key whose hash differs from the empty
descriptor hash. -/
def eHashMismatch : Entry := { key := "", hash := "h1", expiry := none, blob := 7 }

/-- A store holding eHashMismatch under the empty key. -/
def sHashMismatch : Store := [(("" : String), eHashMismatch)]

/-- An ordinary descriptor with a non-empty key and hash. -/
def dKeyK : Descriptor :=
  { key := "k", src := "u", hash := "h", isAsync := false, expiry := none }

/-- A fresh, hash-matching stored entry for dKeyK. -/
def eHitK : Entry := { key := "k", hash := "h", expiry := none, blob := 5 }

/-- A store holding eHitK. -/
def sHitK : Store := [(("k" : String), eHitK)]

/-- A descriptor whose non-empty hash mismatches the stored entry. -/
def dMissK : Descriptor :=
  { key := "k", src := "u", hash := "h2", isAsync := false, expiry := none }

/-- A stale stored entry for dMissK with the old hash. -/
def eMissK : Entry := { key := "k", hash := "h1", expiry := none, blob := 7 }

/-- A store holding eMissK. -/
def sMissK : Store := [(("k" : String), eMissK)]

/-- Two ordered data records where the first resolved without a payload and
the second carries one. -/
def dsStalled : List DataRec :=
  [ { key := "a", hash := "a", expiry := none, blob := none }
  , { key := "b", hash := "b", expiry := none, blob := some 5 } ]

/-- Two ordered data records that both carry payloads. -/
def dsOrdered : List DataRec :=
  [ { key := "a", hash := "a", expiry := none, blob := some 1 }
  , { key := "b", hash := "b", expiry := none, blob := some 2 } ]

/-- Completion order in which descriptor 0 settles first, then descriptor 1. -/
def ordBoth : List Nat := [0, 1]

/-- One unprocessed image element with data-src u and no other attributes. -/
def imgEl : El :=
  { tag := "IMG", keyAttr := "", src := "u", hashAttr := "", asyncAttr := false
  , deferAttr := false, lazyAttr := false, expiryAttr := none, indexed := false }

/-- A document holding just imgEl. -/
def docOneImg : List El := [imgEl]

/-- The same image element already marked data-indexed. -/
def imgElIndexed : El := { imgEl with indexed := true }

/-- A document whose only element is already marked. -/
def docIndexed : List El := [imgElIndexed]

/-- An environment with a working but unhelpful world: the store read works
(against an empty store), the fetch fails. -/
def envFetchFail : Env := { readFails := false, fetchRes := none, putFails := false }

/-- An environment with a working store and a network that yields blob 5. -/
def envNet5 : Env := { readFails := false, fetchRes := some 5, putFails := false }

/-- A full environment with a working store, an ok fetch response whose body
read fails, and an accepting store write. -/
def envFullBodyFail : EnvFull :=
  { readFails := false, fetch := FetchOutcome.okBodyFails, putFails := false }

/-- A full environment in which the store read fails and the fetch rejects. -/
def envFullAllFail : EnvFull :=
  { readFails := true, fetch := FetchOutcome.fail, putFails := false }

/-- A prune environment in which everything succeeds. -/
def penvOk : PruneEnv := { keysFails := false, delFails := false }

/-- A prune environment in which key enumeration fails. -/
def penvKeysFail : PruneEnv := { keysFails := true, delFails := false }

/-- First load pass of the duplicate-fetch scenario: one unprocessed image,
empty store, network down. -/
def firstPass : Except JsError (List El × Nat) × Store :=
  loadEager 0 none false true envFetchFail outcomeTrue penvOk docOneImg []

/-- The document as left by the first pass. -/
def firstPassDoc : List El :=
  match firstPass.1 with
  | Except.ok (d, _) => d
  | Except.error _ => []

/-- Second load pass, run on exactly the document and store the first pass
left behind (no intervening document change). -/
def secondPass : Except JsError (List El × Nat) × Store :=
  loadEager 0 none false true envFetchFail outcomeTrue penvOk firstPassDoc firstPass.2


/-- Lookup after a put under the same key yields exactly the new entry. -/
theorem store_get_put_self (s : Store) (k : String) (e : Entry) :
    Store.get (Store.put s k e) k = some e := by
  simp [Store.put, Store.get]

/-- Every successful eager store lookup yields a record carrying a blob. -/
theorem getDBblobEager_ok_blob (now : Nat) (d : Descriptor) (s : Store)
    (env : Env) (data : DataRec)
    (h : (getDBblobEager now d s env).1 = Except.ok data) :
    data.blob.isSome = true := by
  unfold getDBblobEager at h
  split at h
  · exact absurd h (by simp)
  · split at h
    · exact absurd h (by simp)
    · split at h
      · exact absurd h (by simp)
      · split at h
        · split at h
          · exact absurd h (by simp)
          · simp only [Except.ok.injEq] at h
            rw [← h]; rfl
        · simp only [Except.ok.injEq] at h
          rw [← h]; rfl

/-- Every successful lazy store lookup yields a record carrying a blob. -/
theorem getDBblobLazy_ok_blob (now : Nat) (d : Descriptor) (s : Store)
    (env : Env) (data : DataRec)
    (h : (getDBblobLazy now d s env).1 = Except.ok data) :
    data.blob.isSome = true := by
  unfold getDBblobLazy at h
  split at h
  · exact absurd h (by simp)
  · split at h
    · exact absurd h (by simp)
    · split at h
      · exact absurd h (by simp)
      · split at h
        · exact absurd h (by simp)
        · split at h
          · split at h
            · exact absurd h (by simp)
            · simp only [Except.ok.injEq] at h
              rw [← h]; rfl
          · simp only [Except.ok.injEq] at h
            rw [← h]; rfl

/-- Every successful fetch yields a record carrying a blob. -/
theorem fetchObject_ok_blob (d : Descriptor) (s : Store) (env : Env)
    (data : DataRec) (s'' : Store)
    (h : fetchObject d s env = (Except.ok data, s'')) :
    data.blob.isSome = true := by
  unfold fetchObject at h
  split at h
  · exact absurd h (by simp)
  · split at h
    · exact absurd h (by simp)
    · simp only [Prod.mk.injEq, Except.ok.injEq] at h
      rw [← h.1]; rfl

/-- The shared getObject tail always fulfills: either with some blob or with
the explicit no-payload record copied from the descriptor. -/
theorem getObjectAux_total (dbRes : Except Unit DataRec × Store)
    (d : Descriptor) (env : Env)
    (hok : ∀ data, dbRes.1 = Except.ok data → data.blob.isSome = true) :
    (getObjectAux dbRes d env).1.blob.isSome = true ∨
      (getObjectAux dbRes d env).1
        = { key := d.key, hash := d.hash, expiry := d.expiry, blob := none } := by
  rcases dbRes with ⟨res, s'⟩
  cases res with
  | ok data => exact Or.inl (hok data rfl)
  | error u =>
    simp only [getObjectAux]
    rcases hf : fetchObject d s' env with ⟨fres, s''⟩
    cases fres with
    | ok data =>
      simp only []
      exact Or.inl (fetchObject_ok_blob d s' env data s'' hf)
    | error u' => exact Or.inr rfl

/-- The lazy full fetch agrees with the settling fetch under the settling
view of the environment: the failed body read behaves exactly like a fetch
rejection there. -/
theorem fetchObjectFullLazy_eq (d : Descriptor) (s : Store) (envF : EnvFull) :
    fetchObjectFullLazy d s envF = fetchObject d s (envOfFull envF) := by
  rcases envF with ⟨rf, f, pf⟩
  cases f with
  | fail => rfl
  | ok b => cases pf <;> rfl
  | okBodyFails => rfl

/-- The eager full fetch hangs exactly on the ok-response-with-failed-body-
read outcome. -/
theorem fetchObjectFull_none_iff (d : Descriptor) (s : Store)
    (envF : EnvFull) :
    fetchObjectFull d s envF = none ↔ envF.fetch = FetchOutcome.okBodyFails := by
  rcases envF with ⟨rf, f, pf⟩
  cases f with
  | fail => simp [fetchObjectFull]
  | ok b => cases pf <;> simp [fetchObjectFull]
  | okBodyFails => simp [fetchObjectFull]

/-- Away from the hanging outcome, the eager full fetch settles and agrees
with the settling fetch. -/
theorem fetchObjectFull_eq_of_ne (d : Descriptor) (s : Store)
    (envF : EnvFull) (h : envF.fetch ≠ FetchOutcome.okBodyFails) :
    fetchObjectFull d s envF = some (fetchObject d s (envOfFull envF)) := by
  rcases envF with ⟨rf, f, pf⟩
  cases f with
  | fail => rfl
  | ok b => cases pf <;> rfl
  | okBodyFails => exact absurd rfl h

/-- A settled successful eager full fetch yields a record carrying a blob. -/
theorem fetchObjectFull_ok_blob (d : Descriptor) (s : Store) (envF : EnvFull)
    (data : DataRec) (s'' : Store)
    (h : fetchObjectFull d s envF = some (Except.ok data, s'')) :
    data.blob.isSome = true := by
  rcases envF with ⟨rf, f, pf⟩
  cases f with
  | fail => exact absurd h (by simp [fetchObjectFull])
  | ok b =>
    cases pf with
    | false =>
      simp only [fetchObjectFull, Option.some.injEq, Prod.mk.injEq,
        Except.ok.injEq, Bool.false_eq_true, if_false] at h
      rw [← h.1]
      rfl
    | true => exact absurd h (by simp [fetchObjectFull])
  | okBodyFails => exact absurd h (by simp [fetchObjectFull])

/-- The lazy resolution over the full outcome space coincides with the
settling-model lazy resolution under the settling view. -/
theorem getObjectFullLazy_eq (now : Nat) (d : Descriptor) (s : Store)
    (envF : EnvFull) :
    getObjectFullLazy now d s envF = getObjectLazy now d s (envOfFull envF) := by
  rcases hdb : getDBblobLazy now d s (envOfFull envF) with ⟨res, s'⟩
  cases res with
  | ok data => simp [getObjectFullLazy, getObjectLazy, getObjectAux, hdb]
  | error u =>
    rcases hf : fetchObject d s' (envOfFull envF) with ⟨fres, s''⟩
    cases fres <;>
      simp [getObjectFullLazy, getObjectLazy, getObjectAux, hdb,
        fetchObjectFullLazy_eq, hf]

/-- Equation: a store hit settles the eager full resolution at once. -/
theorem getObjectFullEager_eq_hit (now : Nat) (d : Descriptor) (s : Store)
    (envF : EnvFull) (data : DataRec) (s' : Store)
    (hdb : getDBblobEager now d s (envOfFull envF) = (Except.ok data, s')) :
    getObjectFullEager now d s envF = some (data, s', 0) := by
  unfold getObjectFullEager
  rw [hdb]

/-- Equation: after a miss, a hanging fetch leaves the eager full resolution
forever pending. -/
theorem getObjectFullEager_eq_hang (now : Nat) (d : Descriptor) (s : Store)
    (envF : EnvFull) (u : Unit) (s' : Store)
    (hdb : getDBblobEager now d s (envOfFull envF) = (Except.error u, s'))
    (hf : fetchObjectFull d s' envF = none) :
    getObjectFullEager now d s envF = none := by
  unfold getObjectFullEager
  rw [hdb]
  show (match fetchObjectFull d s' envF with
      | none => none
      | some (Except.ok data, s'') => some (data, s'', 1)
      | some (Except.error _, s'') =>
        some ({ key := d.key, hash := d.hash, expiry := d.expiry, blob := none }, s'', 1))
    = none
  rw [hf]

/-- Equation: after a miss, a settled successful fetch resolves with the
fetched record. -/
theorem getObjectFullEager_eq_fetchOk (now : Nat) (d : Descriptor) (s : Store)
    (envF : EnvFull) (u : Unit) (s' : Store) (data : DataRec) (s'' : Store)
    (hdb : getDBblobEager now d s (envOfFull envF) = (Except.error u, s'))
    (hf : fetchObjectFull d s' envF = some (Except.ok data, s'')) :
    getObjectFullEager now d s envF = some (data, s'', 1) := by
  unfold getObjectFullEager
  rw [hdb]
  show (match fetchObjectFull d s' envF with
      | none => none
      | some (Except.ok data, s'') => some (data, s'', 1)
      | some (Except.error _, s'') =>
        some ({ key := d.key, hash := d.hash, expiry := d.expiry, blob := none }, s'', 1))
    = some (data, s'', 1)
  rw [hf]

/-- Equation: after a miss, a settled failed fetch resolves with the
no-payload record. -/
theorem getObjectFullEager_eq_fetchErr (now : Nat) (d : Descriptor)
    (s : Store) (envF : EnvFull) (u u' : Unit) (s' s'' : Store)
    (hdb : getDBblobEager now d s (envOfFull envF) = (Except.error u, s'))
    (hf : fetchObjectFull d s' envF = some (Except.error u', s'')) :
    getObjectFullEager now d s envF
      = some ({ key := d.key, hash := d.hash, expiry := d.expiry, blob := none }, s'', 1) := by
  unfold getObjectFullEager
  rw [hdb]
  show (match fetchObjectFull d s' envF with
      | none => none
      | some (Except.ok data, s'') => some (data, s'', 1)
      | some (Except.error _, s'') =>
        some ({ key := d.key, hash := d.hash, expiry := d.expiry, blob := none }, s'', 1))
    = some ({ key := d.key, hash := d.hash, expiry := d.expiry, blob := none }, s'', 1)
  rw [hf]

/-- C1 counterexample: a concrete descriptor with no stored entry, a working
store, and a fetch whose ok response's body read fails.  The inner
r.blob().then chain of the eager _fetchObject has no rejection handler and
the outer catch is attached to the already-returned fetch().then chain, so
neither resolve nor reject ever runs: _getObject never settles — it does not
terminate with a fulfilled result, contradicting the claim. -/
theorem c1_counterexample :
    getObjectFullEager 0 dKeyK ([] : Store) envFullBodyFail = none := by
  rfl

/-- C1 amended: resolution never rejects in either variant.  The lazy
variant always terminates with a fulfilled result carrying either a payload
blob or the explicit no-payload record copied from the descriptor, even when
store lookup, network fetch and store write all fail.  The eager variant
does the same in every execution except one: when a store miss is followed
by an ok fetch response whose body read fails, the unhandled r.blob()
rejection leaves _getObject forever pending — it never settles (neither
fulfills nor rejects); in every other execution it agrees with the settling
model. -/
theorem c1_amended (now : Nat) (d : Descriptor) (s : Store) (envF : EnvFull) :
    ((getObjectFullLazy now d s envF).1.blob.isSome = true ∨
      (getObjectFullLazy now d s envF).1
        = { key := d.key, hash := d.hash, expiry := d.expiry, blob := none }) ∧
    (∀ r, getObjectFullEager now d s envF = some r →
      (r.1.blob.isSome = true ∨
        r.1 = { key := d.key, hash := d.hash, expiry := d.expiry, blob := none })) ∧
    (getObjectFullEager now d s envF = none →
      envF.fetch = FetchOutcome.okBodyFails) ∧
    (envF.fetch ≠ FetchOutcome.okBodyFails →
      getObjectFullEager now d s envF
        = some (getObjectEager now d s (envOfFull envF))) ∧
    (envF.readFails = true → envF.fetch = FetchOutcome.fail →
      getObjectFullEager now d s envF
        = some ({ key := d.key, hash := d.hash, expiry := d.expiry, blob := none }, s, 1) ∧
      getObjectFullLazy now d s envF
        = ({ key := d.key, hash := d.hash, expiry := d.expiry, blob := none }, s, 1)) := by
  refine ⟨?_, ?_, ?_, ?_, ?_⟩
  · rw [getObjectFullLazy_eq]
    exact getObjectAux_total _ d (envOfFull envF)
      (fun data h => getDBblobLazy_ok_blob now d s (envOfFull envF) data h)
  · intro r hr
    rcases hdb : getDBblobEager now d s (envOfFull envF) with ⟨res, s'⟩
    cases res with
    | ok data =>
      rw [getObjectFullEager_eq_hit now d s envF data s' hdb] at hr
      simp only [Option.some.injEq] at hr
      have hda : (getDBblobEager now d s (envOfFull envF)).1 = Except.ok data := by
        rw [hdb]
      rw [← hr]
      exact Or.inl (getDBblobEager_ok_blob now d s (envOfFull envF) data hda)
    | error u =>
      rcases hf : fetchObjectFull d s' envF with _ | ⟨fres, s''⟩
      · rw [getObjectFullEager_eq_hang now d s envF u s' hdb hf] at hr
        exact Option.noConfusion hr
      · cases fres with
        | ok data =>
          rw [getObjectFullEager_eq_fetchOk now d s envF u s' data s'' hdb hf] at hr
          simp only [Option.some.injEq] at hr
          rw [← hr]
          exact Or.inl (fetchObjectFull_ok_blob d s' envF data s'' hf)
        | error u' =>
          rw [getObjectFullEager_eq_fetchErr now d s envF u u' s' s'' hdb hf] at hr
          simp only [Option.some.injEq] at hr
          rw [← hr]
          exact Or.inr rfl
  · intro hnone
    rcases hdb : getDBblobEager now d s (envOfFull envF) with ⟨res, s'⟩
    cases res with
    | ok data =>
      rw [getObjectFullEager_eq_hit now d s envF data s' hdb] at hnone
      exact Option.noConfusion hnone
    | error u =>
      rcases hf : fetchObjectFull d s' envF with _ | ⟨fres, s''⟩
      · exact (fetchObjectFull_none_iff d s' envF).mp hf
      · cases fres with
        | ok data =>
          rw [getObjectFullEager_eq_fetchOk now d s envF u s' data s'' hdb hf] at hnone
          exact Option.noConfusion hnone
        | error u' =>
          rw [getObjectFullEager_eq_fetchErr now d s envF u u' s' s'' hdb hf] at hnone
          exact Option.noConfusion hnone
  · intro hne
    rcases hdb : getDBblobEager now d s (envOfFull envF) with ⟨res, s'⟩
    cases res with
    | ok data =>
      simp [getObjectFullEager, getObjectEager, getObjectAux, hdb]
    | error u =>
      rcases hf : fetchObject d s' (envOfFull envF) with ⟨fres, s''⟩
      cases fres <;>
        simp [getObjectFullEager, getObjectEager, getObjectAux, hdb,
          fetchObjectFull_eq_of_ne d s' envF hne, hf]
  · intro hr hf
    have h1 : getDBblobEager now d s (envOfFull envF) = (Except.error (), s) := by
      unfold getDBblobEager
      simp [envOfFull, hr]
    have h2 : getDBblobLazy now d s (envOfFull envF) = (Except.error (), s) := by
      unfold getDBblobLazy
      simp [envOfFull, hr]
    have h3 : fetchObjectFull d s envF = some (Except.error (), s) := by
      unfold fetchObjectFull
      rw [hf]
    have h4 : fetchObjectFullLazy d s envF = (Except.error (), s) := by
      unfold fetchObjectFullLazy
      rw [hf]
    constructor
    · simp [getObjectFullEager, h1, h3]
    · simp [getObjectFullLazy, h2, h4]

/-- C1 amended witness: with the store read failing and the fetch rejecting,
both variants settle with exactly the no-payload record after one fetch. -/
theorem c1_amended_witness :
    getObjectFullEager 0 dKeyK ([] : Store) envFullAllFail
      = some ({ key := "k", hash := "h", expiry := none, blob := none },
          ([] : Store), 1) ∧
    getObjectFullLazy 0 dKeyK ([] : Store) envFullAllFail
      = ({ key := "k", hash := "h", expiry := none, blob := none },
          ([] : Store), 1) :=
  (c1_amended 0 dKeyK ([] : Store) envFullAllFail).2.2.2.2 rfl rfl

/-- C2 counterexample: a descriptor whose key, src and hash are all the empty
string (an element with an empty data-src and no data-key), with a stored
entry under that key whose hash matches and which never expires.  The claim
says resolution returns the stored payload with no network fetch; the lazy
variant instead rejects the entry because its stored key field is falsy and
issues one fetch, returning the fetched blob rather than the stored one. -/
theorem c2_counterexample :
    Store.get sEmptyKey dEmptyKey.key = some eEmptyKey ∧
    eEmptyKey.hash = dEmptyKey.hash ∧
    eEmptyKey.expiry = none ∧
    (getObjectLazy 0 dEmptyKey sEmptyKey envNet9).2.2 = 1 ∧
    (getObjectLazy 0 dEmptyKey sEmptyKey envNet9).1.blob = some 9 := by
  decide

/-- C2 amended: if the store read succeeds and the store holds an entry under
the descriptor key whose hash equals the descriptor hash and whose expiry is
null or not earlier than now, the eager variant returns that entry's payload
with no fetch and no store change; the lazy variant does the same provided
additionally that the stored entry's key field is non-empty. -/
theorem c2_amended (now : Nat) (d : Descriptor) (s : Store) (env : Env)
    (e : Entry)
    (hread : env.readFails = false)
    (hget : Store.get s d.key = some e)
    (hhash : e.hash = d.hash)
    (hexp : e.expiry = none ∨ ∃ t, e.expiry = some t ∧ now ≤ t) :
    getObjectEager now d s env = (e.toData, s, 0) ∧
    (e.key ≠ "" → getObjectLazy now d s env = (e.toData, s, 0)) := by
  have hdb : getDBblobEager now d s env = (Except.ok e.toData, s) := by
    unfold getDBblobEager
    rw [hread, hget]
    simp only [Bool.false_eq_true, if_false]
    rw [if_neg (fun hc => hc.2 hhash)]
    rcases hexp with h0 | ⟨t, ht, hle⟩
    · rw [h0]
    · rw [ht]
      simp [Nat.not_lt.mpr hle]
  constructor
  · rw [getObjectEager, hdb]
    rfl
  · intro hkey
    have hdbl : getDBblobLazy now d s env = (Except.ok e.toData, s) := by
      unfold getDBblobLazy
      rw [hread, hget]
      simp only [Bool.false_eq_true, if_false]
      rw [if_neg hkey]
      rw [if_neg (fun hc => hc.2 hhash)]
      rcases hexp with h0 | ⟨t, ht, hle⟩
      · rw [h0]
      · rw [ht]
        simp [Nat.not_lt.mpr hle]
    rw [getObjectLazy, hdbl]
    rfl

/-- C2 amended witness: a concrete fresh hit is served from the store with
zero fetches by both variants. -/
theorem c2_amended_witness :
    getObjectEager 0 dKeyK sHitK envNet9 = (eHitK.toData, sHitK, 0) ∧
    getObjectLazy 0 dKeyK sHitK envNet9 = (eHitK.toData, sHitK, 0) :=
  have h := c2_amended 0 dKeyK sHitK envNet9 eHitK rfl (by decide) (by decide)
    (Or.inl (by decide))
  ⟨h.1, h.2 (by decide)⟩

/-- On a failed store lookup the resolution fetches exactly once, and when
the fetch and the write succeed the result and the store both hold the
record built from the triggering descriptor. -/
theorem getObjectAux_miss (dbRes : Except Unit DataRec × Store)
    (d : Descriptor) (env : Env) (s0 : Store)
    (herr : dbRes = (Except.error (), s0)) :
    (getObjectAux dbRes d env).2.2 = 1 ∧
    (∀ b, env.fetchRes = some b → env.putFails = false →
      (getObjectAux dbRes d env).1
        = { key := d.key, hash := d.hash, expiry := d.expiry, blob := some b } ∧
      Store.get (getObjectAux dbRes d env).2.1 d.key
        = some { key := d.key, hash := d.hash, expiry := d.expiry, blob := b }) := by
  subst herr
  constructor
  · simp only [getObjectAux]
    rcases hf : fetchObject d s0 env with ⟨fres, s''⟩
    cases fres <;> simp
  · intro b hb hput
    have hf : fetchObject d s0 env
        = (Except.ok
            (Entry.toData { key := d.key, hash := d.hash, expiry := d.expiry, blob := b }),
          Store.put s0 d.key { key := d.key, hash := d.hash, expiry := d.expiry, blob := b }) := by
      unfold fetchObject
      rw [hb, hput]
      simp
    simp only [getObjectAux, hf]
    exact ⟨rfl, store_get_put_self _ _ _⟩

/-- On a stale entry (non-empty mismatching descriptor hash, or elapsed
expiry) the eager lookup rejects, leaving the store as it was or with the
stale entry deleted. -/
theorem getDBblobEager_miss (now : Nat) (d : Descriptor) (s : Store)
    (env : Env) (e : Entry)
    (hread : env.readFails = false)
    (hget : Store.get s d.key = some e)
    (hmiss : (d.hash ≠ "" ∧ e.hash ≠ d.hash) ∨ (∃ t, e.expiry = some t ∧ now > t)) :
    getDBblobEager now d s env = (Except.error (), s) ∨
      getDBblobEager now d s env = (Except.error (), Store.del s e.key) := by
  unfold getDBblobEager
  rw [hread, hget]
  simp only [Bool.false_eq_true, if_false]
  by_cases hhc : d.hash ≠ "" ∧ e.hash ≠ d.hash
  · rw [if_pos hhc]
    exact Or.inl rfl
  · rw [if_neg hhc]
    rcases hmiss with h | ⟨t, ht, hgt⟩
    · exact absurd h hhc
    · rw [ht]
      simp only [gt_iff_lt] at hgt
      simp [hgt]

/-- On a stale entry the lazy lookup rejects as well, with the same two
possible store states. -/
theorem getDBblobLazy_miss (now : Nat) (d : Descriptor) (s : Store)
    (env : Env) (e : Entry)
    (hread : env.readFails = false)
    (hget : Store.get s d.key = some e)
    (hmiss : (d.hash ≠ "" ∧ e.hash ≠ d.hash) ∨ (∃ t, e.expiry = some t ∧ now > t)) :
    getDBblobLazy now d s env = (Except.error (), s) ∨
      getDBblobLazy now d s env = (Except.error (), Store.del s e.key) := by
  unfold getDBblobLazy
  rw [hread, hget]
  simp only [Bool.false_eq_true, if_false]
  by_cases hk : e.key = ""
  · rw [if_pos hk]
    exact Or.inl rfl
  · rw [if_neg hk]
    by_cases hhc : d.hash ≠ "" ∧ e.hash ≠ d.hash
    · rw [if_pos hhc]
      exact Or.inl rfl
    · rw [if_neg hhc]
      rcases hmiss with h | ⟨t, ht, hgt⟩
      · exact absurd h hhc
      · rw [ht]
        simp only [gt_iff_lt] at hgt
        simp [hgt]

/-- C3 counterexample: a descriptor whose hash defaulted to the empty string
(element with empty data-src, no data-hash) meets a stored entry whose hash
is h1: the hashes mismatch, so the claim demands exactly one network fetch,
but both variants skip the hash comparison for a falsy descriptor hash; the
eager variant treats the entry as a hit and issues zero fetches, returning
the stale stored blob. -/
theorem c3_counterexample :
    Store.get sHashMismatch dEmptyKey.key = some eHashMismatch ∧
    eHashMismatch.hash ≠ dEmptyKey.hash ∧
    eHashMismatch.expiry = none ∧
    (getObjectEager 0 dEmptyKey sHashMismatch envNet9).2.2 = 0 ∧
    (getObjectEager 0 dEmptyKey sHashMismatch envNet9).1.blob = some 7 := by
  decide

/-- C3 amended: on a cache miss consisting of a mismatched hash with the
descriptor hash non-empty, or an elapsed expiry, both variants issue exactly
one network fetch; and when that fetch-and-populate step succeeds (the fetch
returns a blob and the write is accepted) the store afterwards holds, under
the descriptor key, exactly the entry built from the triggering descriptor's
key, hash, expiry and the fetched payload, and the resolution returns it. -/
theorem c3_amended (now : Nat) (d : Descriptor) (s : Store) (env : Env)
    (e : Entry)
    (hread : env.readFails = false)
    (hget : Store.get s d.key = some e)
    (hmiss : (d.hash ≠ "" ∧ e.hash ≠ d.hash) ∨ (∃ t, e.expiry = some t ∧ now > t)) :
    ((getObjectEager now d s env).2.2 = 1 ∧
      (getObjectLazy now d s env).2.2 = 1) ∧
    (∀ b, env.fetchRes = some b → env.putFails = false →
      ((getObjectEager now d s env).1
          = { key := d.key, hash := d.hash, expiry := d.expiry, blob := some b } ∧
        Store.get (getObjectEager now d s env).2.1 d.key
          = some { key := d.key, hash := d.hash, expiry := d.expiry, blob := b }) ∧
      ((getObjectLazy now d s env).1
          = { key := d.key, hash := d.hash, expiry := d.expiry, blob := some b } ∧
        Store.get (getObjectLazy now d s env).2.1 d.key
          = some { key := d.key, hash := d.hash, expiry := d.expiry, blob := b })) := by
  have hE : ∀ s0, getDBblobEager now d s env = (Except.error (), s0) →
      (getObjectEager now d s env).2.2 = 1 ∧
      (∀ b, env.fetchRes = some b → env.putFails = false →
        (getObjectEager now d s env).1
          = { key := d.key, hash := d.hash, expiry := d.expiry, blob := some b } ∧
        Store.get (getObjectEager now d s env).2.1 d.key
          = some { key := d.key, hash := d.hash, expiry := d.expiry, blob := b }) := by
    intro s0 h0
    exact getObjectAux_miss _ d env s0 h0
  have hL : ∀ s0, getDBblobLazy now d s env = (Except.error (), s0) →
      (getObjectLazy now d s env).2.2 = 1 ∧
      (∀ b, env.fetchRes = some b → env.putFails = false →
        (getObjectLazy now d s env).1
          = { key := d.key, hash := d.hash, expiry := d.expiry, blob := some b } ∧
        Store.get (getObjectLazy now d s env).2.1 d.key
          = some { key := d.key, hash := d.hash, expiry := d.expiry, blob := b }) := by
    intro s0 h0
    exact getObjectAux_miss _ d env s0 h0
  rcases getDBblobEager_miss now d s env e hread hget hmiss with hdbE | hdbE <;>
    rcases getDBblobLazy_miss now d s env e hread hget hmiss with hdbL | hdbL <;>
    exact ⟨⟨(hE _ hdbE).1, (hL _ hdbL).1⟩,
      fun b hb hp => ⟨(hE _ hdbE).2 b hb hp, (hL _ hdbL).2 b hb hp⟩⟩

/-- C3 amended witness: a concrete mismatched-hash miss fetches once and
overwrites the stale entry with the descriptor's record in both variants. -/
theorem c3_amended_witness :
    (getObjectEager 0 dMissK sMissK envNet9).2.2 = 1 ∧
    Store.get (getObjectEager 0 dMissK sMissK envNet9).2.1 dMissK.key
      = some { key := "k", hash := "h2", expiry := none, blob := 9 } ∧
    (getObjectLazy 0 dMissK sMissK envNet9).2.2 = 1 :=
  have h := c3_amended 0 dMissK sMissK envNet9 eMissK rfl (by decide)
    (Or.inl (by decide))
  ⟨h.1.1, ((h.2 9 rfl rfl).1).2, h.1.2⟩

/-- When every data record carries a payload, the chain applies all elements
in list order, whatever each element's completion outcome is. -/
theorem applyElementsRun_all_blob (objs : List DataRec) :
    (∀ o ∈ objs, o.blob.isSome = true) → ∀ out : Nat → Bool,
      applyElementsRun objs out = List.range objs.length := by
  induction objs with
  | nil => intro _ _; rfl
  | cons o rest ih =>
    intro h out
    have ho : o.blob.isSome = true := h o (List.mem_cons_self o rest)
    have hrest : ∀ x ∈ rest, x.blob.isSome = true :=
      fun x hx => h x (List.mem_cons_of_mem o hx)
    simp only [applyElementsRun, ho, if_true]
    have htail : (match out 0 with
        | true => (applyElementsRun rest (fun k => out (k + 1))).map (fun i => i + 1)
        | false => (applyElementsRun rest (fun k => out (k + 1))).map (fun i => i + 1))
        = (applyElementsRun rest (fun k => out (k + 1))).map (fun i => i + 1) := by
      cases out 0 <;> rfl
    rw [htail, ih hrest]
    rw [List.length_cons, List.range_succ_eq_map]

/-- C4 counterexample: two ordered descriptors where the first resolved
without a payload and the second with one.  The claim demands that the
second element's payload still be applied (order 1..N, one failing element
never blocking the rest); in the code applyElement returns at once for the
blobless first element, no completion event ever fires, and nothing — in
particular not the second element — is applied. -/
theorem c4_counterexample :
    dsStalled.length = 2 ∧
    (dsStalled.get? 1).map DataRec.blob = some (some 5) ∧
    applyElementsRun dsStalled outcomeTrue = [] ∧
    applyElementsRun dsStalled outcomeTrue ≠ List.range dsStalled.length := by
  decide

/-- C4 amended: for ordered descriptors that all resolved with a payload,
application happens strictly in document order 1..N, and an element's load
failure advances the chain exactly as a load success does: the applied
sequence is the same for every assignment of load/error outcomes. -/
theorem c4_amended (objs : List DataRec) (out out' : Nat → Bool)
    (h : ∀ o ∈ objs, o.blob.isSome = true) :
    applyElementsRun objs out = List.range objs.length ∧
    applyElementsRun objs out = applyElementsRun objs out' := by
  have h1 := applyElementsRun_all_blob objs h out
  have h2 := applyElementsRun_all_blob objs h out'
  exact ⟨h1, h1.trans h2.symm⟩

/-- C4 amended witness: two payload-carrying ordered elements are applied as
0 then 1 even when every completion is an error event. -/
theorem c4_amended_witness :
    applyElementsRun dsOrdered outcomeFalse = List.range dsOrdered.length ∧
    applyElementsRun dsOrdered outcomeFalse = applyElementsRun dsOrdered outcomeTrue :=
  c4_amended dsOrdered outcomeFalse outcomeTrue (by decide)

/-- Reassembling with nothing to substitute leaves the document unchanged. -/
theorem reassemble_nil (doc : List El) : reassemble doc [] = doc := by
  induction doc with
  | nil => rfl
  | cons e rest ih =>
    simp only [reassemble]
    split <;> simp [ih]

/-- C6 counterexample: one unprocessed image over an empty store with the
network down.  The first load resolves it (one fetch), obtains no payload,
applies nothing and therefore marks nothing; with no document change, the
second load — run on exactly the document and store the first left behind —
re-scans the element and issues a second network fetch, so load is not
idempotent and duplicate fetches do occur. -/
theorem c6_counterexample :
    firstPass = (Except.ok (docOneImg, 1), ([] : Store)) ∧
    secondPass = (Except.ok (docOneImg, 1), ([] : Store)) := by
  constructor
  · rfl
  · rfl

/-- C6 amended: an applied element is marked data-indexed and skipped by both
the scan selector and the per-element guard, so when every element of the
document was applied (marked) by the first call, a second load call applies
no element and issues no network fetch; elements whose resolution produced no
payload are not marked and are re-processed, possibly re-fetching, on the
second call. -/
theorem c6_amended (now : Nat) (optExpiry : Option Nat) (pruneOpt : Bool)
    (env : Env) (outcome : Nat → Bool) (penv : PruneEnv) (doc : List El)
    (s : Store)
    (h : ∀ e ∈ doc, e.indexed = true) :
    loadEager now optExpiry pruneOpt true env outcome penv doc s
      = (Except.ok (doc, 0), s) := by
  have hscan : doc.filter (fun e => !e.indexed) = [] := by
    rw [List.filter_eq_nil]
    intro e he
    simp [h e he]
  have hcore : loadEagerCore now optExpiry true env outcome doc s
      = Except.ok (doc, s, 0) := by
    rw [loadEagerCore]
    simp only [hscan, if_true, List.map_nil, List.zip_nil_right, List.filter_nil,
      resolveSeq, applyMarks]
    rw [reassemble_nil]
  rw [loadEager, hcore]
  simp [hscan]

/-- C6 amended witness: a document whose only element is already marked is
returned untouched with zero fetches by a repeat load. -/
theorem c6_amended_witness :
    loadEager 0 none false true envFetchFail outcomeTrue penvOk docIndexed []
      = (Except.ok (docIndexed, 0), ([] : Store)) :=
  c6_amended 0 none false envFetchFail outcomeTrue penvOk docIndexed []
    (by decide)

/-- The chain trace never contains a resolution event. -/
theorem chainTrace_no_resolved (objs : List DataRec) :
    ∀ (out : Nat → Bool) (j : Nat), ¬ Ev.resolved j ∈ chainTrace objs out := by
  induction objs with
  | nil => intro out j h; exact absurd h (List.not_mem_nil _)
  | cons o rest ih =>
    intro out j h
    by_cases hb : o.blob.isSome = true
    · simp only [chainTrace, hb, if_true] at h
      have hmatch : (match out 0 with
          | true => (chainTrace rest (fun k => out (k + 1))).map evShift
          | false => (chainTrace rest (fun k => out (k + 1))).map evShift)
          = (chainTrace rest (fun k => out (k + 1))).map evShift := by
        cases out 0 <;> rfl
      rw [hmatch] at h
      rcases List.mem_cons.mp h with h0 | h
      · exact absurd h0 (by simp)
      rcases List.mem_cons.mp h with h0 | h
      · exact absurd h0 (by simp)
      rcases List.mem_map.mp h with ⟨e, he, hshift⟩
      cases e with
      | resolved i =>
        have : Ev.resolved i ∈ chainTrace rest (fun k => out (k + 1)) := he
        exact ih (fun k => out (k + 1)) i this
      | applied i => exact absurd hshift (by simp [evShift])
      | fired i => exact absurd hshift (by simp [evShift])
    · simp only [chainTrace, hb, if_false] at h
      exact absurd h (List.not_mem_nil _)

/-- C7 counterexample: two payload-carrying ordered descriptors whose
resolutions settle as 0 first, then 1.  The claim says the first ordered
element is applied as soon as its own resolution completes, without waiting
for the other; in the trace produced by the code, its application strictly
follows the second descriptor's resolution, because the await on allSettled
holds the chain until every ordered resolution has settled. -/
theorem c7_counterexample :
    passTrace dsOrdered ordBoth outcomeTrue
      = [Ev.resolved 0, Ev.resolved 1, Ev.applied 0, Ev.fired 0,
         Ev.applied 1, Ev.fired 1] ∧
    (passTrace dsOrdered ordBoth outcomeTrue).indexOf (Ev.applied 0)
      > (passTrace dsOrdered ordBoth outcomeTrue).indexOf (Ev.resolved 1) := by
  decide

/-- C7 amended: in the ordered part of a load pass, every application event
strictly follows every resolution-completion event — the first ordered
element's payload is applied only once all ordered resolutions in the pass
have settled — and, provided the first ordered element carries a payload, the
first event after the resolutions is exactly its application, starting the
chain. -/
theorem c7_amended (objs : List DataRec) (order : List Nat)
    (out : Nat → Bool) :
    (∀ p q i j,
      (passTrace objs order out).get? p = some (Ev.resolved j) →
      (passTrace objs order out).get? q = some (Ev.applied i) → p < q) ∧
    (∀ o rest, objs = o :: rest → o.blob.isSome = true →
      (passTrace objs order out).get? order.length = some (Ev.applied 0)) := by
  constructor
  · intro p q i j hp hq
    have hq' : (order.map Ev.resolved).length ≤ q := by
      by_contra hlt
      push_neg at hlt
      rw [passTrace, List.get?_append hlt] at hq
      have hmem := List.get?_mem hq
      rcases List.mem_map.mp hmem with ⟨x, _, hx⟩
      exact absurd hx (by simp)
    have hp' : p < (order.map Ev.resolved).length := by
      by_contra hge
      push_neg at hge
      rw [passTrace, List.get?_append_right hge] at hp
      have hmem := List.get?_mem hp
      exact chainTrace_no_resolved objs out j hmem
    omega
  · intro o rest hobjs hblob
    subst hobjs
    rw [passTrace, List.get?_append_right (by simp)]
    simp only [List.length_map, Nat.sub_self]
    simp [chainTrace, hblob]

/-- C7 amended witness: with both concrete ordered resolutions settling
before the chain, the event at position 0 (a resolution) precedes the event
at position 2 (the first application), which sits right after the two
resolutions. -/
theorem c7_amended_witness :
    (0 : Nat) < 2 ∧
    (passTrace dsOrdered ordBoth outcomeTrue).get? ordBoth.length
      = some (Ev.applied 0) :=
  ⟨(c7_amended dsOrdered ordBoth outcomeTrue).1 0 2 0 0 (by decide) (by decide),
   (c7_amended dsOrdered ordBoth outcomeTrue).2
     { key := "a", hash := "a", expiry := none, blob := some 1 }
     [{ key := "b", hash := "b", expiry := none, blob := some 2 }]
     (by decide) (by decide)⟩

/-- C8: with skip enabled, the eager init indeed never opens the store and
leaves the db handle null — but then a load with that null handle resolves
nothing at all: even with a working network, zero fetches are issued and the
element is returned unapplied, contradicting the documented behavior that
resources are fetched over HTTP every time; and the lazy constructor opens
the store unconditionally, ignoring skip altogether. -/
theorem c8_skip_behavior :
    initEagerOpensStore true = false ∧
    initEager true true = false ∧
    ctorLazyOpensStore true = true ∧
    (loadEager 0 none false (initEager true true) envNet5 outcomeTrue penvOk
        docOneImg []).1
      = Except.ok (docOneImg, 0) :=
  ⟨rfl, rfl, rfl, rfl⟩

/-- C9 counterexample: in the lazy variant, load awaits prune; with one
ordered element (resolved and cached successfully) and pruning enabled, a
failure to enumerate the store's keys rejects the whole load call. -/
theorem c9_counterexample :
    loadLazy 0 none true envNet5 outcomeTrue penvKeysFail docOneImg []
      = Except.error JsError.pruneKeysError := by
  rfl

/-- C9 amended: in the eager variant, _prune is fired without being awaited
and has no reported result, so the outcome of load — the settled document,
the fetch count, or the propagated error — is identical whatever the pruning
operations do; only the background state of the store can differ.  In the
lazy variant load awaits prune and a pruning failure rejects load. -/
theorem c9_amended (now : Nat) (optExpiry : Option Nat) (pruneOpt db : Bool)
    (env : Env) (outcome : Nat → Bool) (penv1 penv2 : PruneEnv)
    (doc : List El) (s : Store) :
    (loadEager now optExpiry pruneOpt db env outcome penv1 doc s).1
      = (loadEager now optExpiry pruneOpt db env outcome penv2 doc s).1 := by
  rw [loadEager, loadEager]
  rcases hc : loadEagerCore now optExpiry db env outcome doc s with e | t
  · rfl
  · rcases t with ⟨doc', s', n⟩
    cases hif : (db && !(doc.filter (fun e => !e.indexed)).isEmpty && pruneOpt) <;>
      simp [hif]

/-- C10: in the eager variant, whenever the db handle is null (init failed,
init never called, or skip enabled) and the scan yields no descriptors,
_setupElements calls _applyElements on an empty array, whose unconditional
read of the first element's data field is a TypeError, so load rejects
instead of returning normally. -/
theorem c10_empty_scan_crash (now : Nat) (optExpiry : Option Nat)
    (pruneOpt : Bool) (env : Env) (outcome : Nat → Bool) (penv : PruneEnv)
    (doc : List El) (s : Store)
    (hscan : doc.filter (fun e => !e.indexed) = []) :
    (loadEager now optExpiry pruneOpt false env outcome penv doc s).1
      = Except.error JsError.typeError := by
  have hcore : loadEagerCore now optExpiry false env outcome doc s
      = Except.error JsError.typeError := by
    rw [loadEagerCore]
    simp [hscan]
  rw [loadEager, hcore]

/-- C10 witness: a load on an empty document with the store unavailable
rejects with the TypeError. -/
theorem c10_witness :
    (loadEager 0 none false false envNet5 outcomeTrue penvOk ([] : List El)
        ([] : Store)).1
      = Except.error JsError.typeError :=
  c10_empty_scan_crash 0 none false envNet5 outcomeTrue penvOk [] []
    (by decide)
